import Mathlib

/- Shallow embedding of the companies-directory application:
   the Directory Cache Service (`src/backend/server.js`) and the
   Directory View Model (`src/frontend/src/App.js`).
   JS numbers that only ever hold integers are modelled as `Int`;
   JS strings as `String`, compared through their character lists so that
   every comparison is kernel-computable. -/

/-- A company record (the `CompanyRecord` JSON shape served by the backend and
consumed by the frontend). -/
structure Company where
  id : Int
  name : String
  location : String
  industry : String
  employees : Int
  founded : Int
  ticker : Option String
  deriving DecidableEq

/-- The curated Fortune-500 fallback dataset returned by `getRealCompanies()`
in `server.js`. -/
def getRealCompanies : List Company :=
  [ { id := 1, name := "Apple Inc.", location := "Cupertino, CA", industry := "Technology", employees := 164000, founded := 1976, ticker := some "AAPL" },
    { id := 2, name := "Microsoft Corporation", location := "Redmond, WA", industry := "Technology", employees := 221000, founded := 1975, ticker := some "MSFT" },
    { id := 3, name := "Amazon.com Inc.", location := "Seattle, WA", industry := "Retail", employees := 1541000, founded := 1994, ticker := some "AMZN" },
    { id := 4, name := "Tesla Inc.", location := "Austin, TX", industry := "Energy", employees := 127855, founded := 2003, ticker := some "TSLA" },
    { id := 5, name := "Meta Platforms Inc.", location := "Menlo Park, CA", industry := "Technology", employees := 86482, founded := 2004, ticker := some "META" },
    { id := 6, name := "Alphabet Inc.", location := "Mountain View, CA", industry := "Technology", employees := 190234, founded := 1998, ticker := some "GOOGL" },
    { id := 7, name := "JPMorgan Chase & Co.", location := "New York, NY", industry := "Finance", employees := 293723, founded := 1799, ticker := some "JPM" },
    { id := 8, name := "Johnson & Johnson", location := "New Brunswick, NJ", industry := "Healthcare", employees := 152700, founded := 1886, ticker := some "JNJ" },
    { id := 9, name := "Visa Inc.", location := "San Francisco, CA", industry := "Finance", employees := 26500, founded := 1958, ticker := some "V" },
    { id := 10, name := "Walmart Inc.", location := "Bentonville, AR", industry := "Retail", employees := 2100000, founded := 1962, ticker := some "WMT" },
    { id := 11, name := "Procter & Gamble", location := "Cincinnati, OH", industry := "Retail", employees := 107000, founded := 1837, ticker := some "PG" },
    { id := 12, name := "UnitedHealth Group", location := "Minnetonka, MN", industry := "Healthcare", employees := 440000, founded := 1977, ticker := some "UNH" },
    { id := 13, name := "NVIDIA Corporation", location := "Santa Clara, CA", industry := "Technology", employees := 29600, founded := 1993, ticker := some "NVDA" },
    { id := 14, name := "Exxon Mobil", location := "Irving, TX", industry := "Energy", employees := 62000, founded := 1999, ticker := some "XOM" },
    { id := 15, name := "Pfizer Inc.", location := "New York, NY", industry := "Healthcare", employees := 83000, founded := 1849, ticker := some "PFE" },
    { id := 16, name := "Coca-Cola Company", location := "Atlanta, GA", industry := "Retail", employees := 82500, founded := 1892, ticker := some "KO" },
    { id := 17, name := "Intel Corporation", location := "Santa Clara, CA", industry := "Technology", employees := 124800, founded := 1968, ticker := some "INTC" },
    { id := 18, name := "Chevron Corporation", location := "San Ramon, CA", industry := "Energy", employees := 43846, founded := 1879, ticker := some "CVX" },
    { id := 19, name := "Mastercard Inc.", location := "Purchase, NY", industry := "Finance", employees := 33000, founded := 1966, ticker := some "MA" },
    { id := 20, name := "Netflix Inc.", location := "Los Gatos, CA", industry := "Technology", employees := 12800, founded := 1997, ticker := some "NFLX" } ]

/-- One entry of the SEC EDGAR `company_tickers.json` mapping, reduced to the two
fields `fetchFromSEC` reads (`title` and `ticker`). -/
structure SecEntry where
  title : String
  ticker : String
  deriving DecidableEq

/-- The label cycle `['Technology','Finance','Healthcare','Retail','Energy'][index % 5]`. -/
def industryCycle : Nat → String
  | 0 => "Technology"
  | 1 => "Finance"
  | 2 => "Healthcare"
  | 3 => "Retail"
  | _ => "Energy"

/-- The record `fetchFromSEC` builds for the SEC entry at position `i`.
`Math.floor(Math.random() * 5000) + 100` is an arbitrary integer in `[100, 5099]`
and `Math.floor(Math.random() * (2020 - 1950) + 1950)` one in `[1950, 2019]`;
the random draws are injected as functions `randE randF : Nat → Nat` of the index
and reduced into the ranges the originals occupy by `% 5000` / `% 70`. -/
def mkSecCompany (randE randF : Nat → Nat) (i : Nat) (e : SecEntry) : Company :=
  { id := (i : Int) + 1
    name := e.title
    location := "United States"
    industry := industryCycle (i % 5)
    employees := ((randE i % 5000 + 100 : Nat) : Int)
    founded := ((1950 + randF i % 70 : Nat) : Int)
    ticker := some e.ticker }

/-- `secData.map((company, index) => ...)`, carrying the running index `k`. -/
def mapSecFrom (randE randF : Nat → Nat) (k : Nat) : List SecEntry → List Company
  | [] => []
  | e :: es => mkSecCompany randE randF k e :: mapSecFrom randE randF (k + 1) es

/-- `fetchFromSEC()`. `resp` is the parsed registry payload
(`Object.values(response.data)`); `none` models the HTTP call failing or timing
out, in which case the `catch` block returns `null`. On success the first 20
entries (`slice(0, 20)`) are mapped into company records. -/
def fetchFromSEC (resp : Option (List SecEntry)) (randE randF : Nat → Nat) :
    Option (List Company) :=
  resp.map fun d => mapSecFrom randE randF 0 (d.take 20)

/-- `fetchCompanies()`: the SEC result when it is non-null and non-empty,
otherwise the curated fallback list. -/
def fetchCompanies (resp : Option (List SecEntry)) (randE randF : Nat → Nat) :
    List Company :=
  match fetchFromSEC resp randE randF with
  | some cs => if 0 < cs.length then cs else getRealCompanies
  | none => getRealCompanies

/-- The backend's module-level mutable state: `cachedCompanies` (initially `null`)
and `lastFetchTime` (initially `null`, otherwise a stored `Date.now()` value). -/
structure ServerState where
  cachedCompanies : Option (List Company)
  lastFetchTime : Option Int
  deriving DecidableEq

/-- `CACHE_DURATION` (one hour, in milliseconds). -/
def CACHE_DURATION : Int := 3600000

/-- The JSON body of a route response. Fields that a given route does not emit
keep their defaults; `status` is the HTTP status code (200 unless set). -/
structure ApiResponse where
  status : Nat := 200
  success : Bool
  data : List Company := []
  company : Option Company := none
  count : Option Nat := none
  source : Option String := none
  message : Option String := none
  deriving DecidableEq

/-- The guard of the `GET /api/companies` cache branch:
`cachedCompanies && lastFetchTime && (currentTime - lastFetchTime) < CACHE_DURATION`.
Truthiness-faithful: a `null` list or a `null`/`0` timestamp fails the guard
(any array, even an empty one, is truthy). Returns the served list when the
guard holds. -/
def freshCache (st : ServerState) (now : Int) : Option (List Company) :=
  match st.cachedCompanies, st.lastFetchTime with
  | some l, some t => if t ≠ 0 ∧ now - t < CACHE_DURATION then some l else none
  | _, _ => none

/-- `GET /api/companies`. `now` is what `Date.now()` returns at the start of the
handler (the `currentTime` constant) — the only clock sample this handler takes,
so it is also the timestamp stored after a fetch. The ISO `timestamp` string of
the fresh-fetch response body is not modelled. -/
def getCompanies (st : ServerState) (now : Int) (resp : Option (List SecEntry))
    (randE randF : Nat → Nat) : ApiResponse × ServerState :=
  match freshCache st now with
  | some l =>
      ({ success := true, data := l, count := some l.length, source := some "cache" }, st)
  | none =>
      let cs := fetchCompanies resp randE randF
      ({ success := true, data := cs, count := some cs.length, source := some "api" },
       { cachedCompanies := some cs, lastFetchTime := some now })

/-- `POST /api/companies/refresh`. `completedAt` is what `Date.now()` returns at
the sample this handler takes, right after `await fetchCompanies()` finishes. -/
def postRefresh (_st : ServerState) (completedAt : Int) (resp : Option (List SecEntry))
    (randE randF : Nat → Nat) : ApiResponse × ServerState :=
  let cs := fetchCompanies resp randE randF
  (({ success := true, message := some "Data refreshed successfully",
      data := cs, count := some cs.length } : ApiResponse),
   { cachedCompanies := some cs, lastFetchTime := some completedAt })

/-- The snapshot `GET /api/companies/:id` searches: the cached list, or the list
produced by the fetch the route triggers when `cachedCompanies` is still `null`. -/
def effectiveCache (st : ServerState) (resp : Option (List SecEntry))
    (randE randF : Nat → Nat) : List Company :=
  match st.cachedCompanies with
  | some l => l
  | none => fetchCompanies resp randE randF

/-- `GET /api/companies/:id`. `parsedId` is `parseInt(req.params.id)`, with `none`
standing for `NaN` (the parse result of a path parameter that is not numeric);
`c.id === NaN` is false for every record, so the `none` case matches nothing.
Note the route only stores the fetched list (it does not set `lastFetchTime`). -/
def getCompanyById (st : ServerState) (parsedId : Option Int)
    (resp : Option (List SecEntry)) (randE randF : Nat → Nat) :
    ApiResponse × ServerState :=
  let l := effectiveCache st resp randE randF
  let st1 : ServerState := { cachedCompanies := some l, lastFetchTime := st.lastFetchTime }
  match (match parsedId with
         | none => none
         | some n => l.find? fun c => c.id == n) with
  | none => ({ status := 404, success := false, message := some "Company not found" }, st1)
  | some c => ({ success := true, company := some c }, st1)

/- ===================== Directory View Model (App.js) ===================== -/

/-- The five sortable columns (`handleSort` is only ever called with these). -/
inductive SortKey where
  | name | location | industry | employees | founded
  deriving DecidableEq

inductive SortDir where
  | asc | desc
  deriving DecidableEq

/-- The user-controlled view parameters of the `App` component. -/
structure ViewState where
  searchTerm : String
  locationFilter : String
  industryFilter : String
  sortBy : SortKey
  sortOrder : SortDir
  page : Nat
  deriving DecidableEq

/-- `const itemsPerPage = 6`. -/
def itemsPerPage : Nat := 6

/-- `s.toLowerCase()(…)` as a character list (`String.toLower` is
`String.map Char.toLower`; the list form keeps it kernel-computable). -/
def lowerChars (s : String) : List Char := s.data.map Char.toLower

/-- `hay.toLowerCase().includes(sub.toLowerCase())`. -/
def jsIncludes (hay sub : String) : Bool := decide (lowerChars sub <:+: lowerChars hay)

/-- The predicate of `companies.filter(...)` inside `filteredCompanies`:
`matchesSearch && matchesLocation && matchesIndustry`. -/
def filterPred (vs : ViewState) (c : Company) : Bool :=
  (jsIncludes c.name vs.searchTerm || jsIncludes c.location vs.searchTerm)
    && (vs.locationFilter == "" || c.location == vs.locationFilter)
    && (vs.industryFilter == "" || c.industry == vs.industryFilter)

def filterStep (vs : ViewState) (l : List Company) : List Company :=
  l.filter (filterPred vs)

/-- A JS value as it appears in the sort comparator: a (lowercased) string, or a
number. -/
inductive JSVal where
  | str : List Char → JSVal
  | num : Int → JSVal
  deriving DecidableEq

/-- `a[sortBy]`, lowercased when it is a string (the comparator's
`typeof aVal === 'string'` branch). -/
def sortVal (k : SortKey) (c : Company) : JSVal :=
  match k with
  | .name => .str (lowerChars c.name)
  | .location => .str (lowerChars c.location)
  | .industry => .str (lowerChars c.industry)
  | .employees => .num c.employees
  | .founded => .num c.founded

/-- JS `<` on two comparator operands (the operands always have the same type
here: lexicographic code-point order on strings, numeric order on numbers). -/
def jsvalLt : JSVal → JSVal → Bool
  | .str s, .str t => decide (s < t)
  | .num m, .num n => decide (m < n)
  | .str _, .num _ => false
  | .num _, .str _ => false

/-- `aVal < bVal` for the values the comparator extracts. -/
def jsLt (k : SortKey) (a b : Company) : Bool := jsvalLt (sortVal k a) (sortVal k b)

/-- The comparator `aVal > bVal ? 1 : -1` (asc) resp. `aVal < bVal ? 1 : -1`
(desc) places `a` no later than `b` exactly when it returns `-1`; `sortLe` is
that "comparator result ≤ 0" relation, i.e. the order the sorted output obeys. -/
def sortLe (k : SortKey) (d : SortDir) (a b : Company) : Bool :=
  match d with
  | .asc => !(jsLt k b a)
  | .desc => !(jsLt k a b)

/-- `filtered.sort(comparator)`: a comparison sort by the comparator, modelled
as a stable merge sort under `sortLe`. -/
def sortStep (vs : ViewState) (l : List Company) : List Company :=
  l.mergeSort (sortLe vs.sortBy vs.sortOrder)

/-- The derived `filteredCompanies` memo: filter, then sort. -/
def filteredSorted (vs : ViewState) (l : List Company) : List Company :=
  sortStep vs (filterStep vs l)

/-- `Math.ceil(filteredCompanies.length / itemsPerPage)`. -/
def totalPages (l : List Company) : Nat :=
  (l.length + (itemsPerPage - 1)) / itemsPerPage

/-- `filteredCompanies.slice((currentPage - 1) * itemsPerPage, currentPage * itemsPerPage)`
for the positive page numbers the component produces. -/
def paginate (l : List Company) (page : Nat) : List Company :=
  (l.drop ((page - 1) * itemsPerPage)).take itemsPerPage

def paginatedCompanies (vs : ViewState) (l : List Company) : List Company :=
  paginate (filteredSorted vs l) vs.page

def flipDir : SortDir → SortDir
  | .asc => .desc
  | .desc => .asc

/-- The search input's `onChange`: `setSearchTerm(v); setCurrentPage(1)`. -/
def onSearchChange (vs : ViewState) (v : String) : ViewState :=
  { vs with searchTerm := v, page := 1 }

/-- The location select's `onChange`: `setLocationFilter(v); setCurrentPage(1)`. -/
def onLocationChange (vs : ViewState) (v : String) : ViewState :=
  { vs with locationFilter := v, page := 1 }

/-- The industry select's `onChange`: `setIndustryFilter(v); setCurrentPage(1)`. -/
def onIndustryChange (vs : ViewState) (v : String) : ViewState :=
  { vs with industryFilter := v, page := 1 }

/-- `handleSort(field)`: toggles the direction on the already-active column,
otherwise selects the new column ascending. It does not touch `currentPage`. -/
def handleSort (vs : ViewState) (field : SortKey) : ViewState :=
  if vs.sortBy = field then { vs with sortOrder := flipDir vs.sortOrder }
  else { vs with sortBy := field, sortOrder := .asc }

/- ===================== Order helper lemmas ===================== -/

/-- Totality seed: in a linear order one of the two strict comparisons fails. -/
theorem notLt_or {α : Type} [LinearOrder α] (x y : α) : ¬ y < x ∨ ¬ x < y := by
  rcases le_total x y with h | h
  · exact Or.inl (not_lt.mpr h)
  · exact Or.inr (not_lt.mpr h)

/-- Transitivity seed: `¬ y < x → ¬ z < y → ¬ z < x` in a linear order. -/
theorem notLt_trans {α : Type} [LinearOrder α] {x y z : α}
    (h1 : ¬ y < x) (h2 : ¬ z < y) : ¬ z < x := fun h =>
  h2 (lt_of_lt_of_le h (not_lt.mp h1))

/-- The comparator-induced order is total (the comparator never answers `1` in
both directions on same-typed operands). -/
theorem sortLe_total (k : SortKey) (d : SortDir) (a b : Company) :
    (sortLe k d a b || sortLe k d b a) = true := by
  cases d <;> cases k <;>
    simp only [sortLe, jsLt, sortVal, jsvalLt, Bool.or_eq_true, Bool.not_eq_true',
      decide_eq_false_iff_not] <;>
    exact notLt_or _ _

/-- The comparator-induced order is transitive. -/
theorem sortLe_trans (k : SortKey) (d : SortDir) (a b c : Company)
    (h1 : sortLe k d a b = true) (h2 : sortLe k d b c = true) : sortLe k d a c = true := by
  cases d <;> cases k <;>
    simp only [sortLe, jsLt, sortVal, jsvalLt, Bool.not_eq_true',
      decide_eq_false_iff_not] at h1 h2 ⊢ <;>
    first
      | exact notLt_trans h1 h2
      | exact notLt_trans h2 h1

/-- Two records the comparator cannot strictly separate carry equal sort keys. -/
theorem sortVal_eq_of_both (k : SortKey) (a b : Company)
    (h1 : jsLt k a b = false) (h2 : jsLt k b a = false) : sortVal k a = sortVal k b := by
  cases k <;>
    simp only [jsLt, sortVal, jsvalLt, decide_eq_false_iff_not] at h1 h2 <;>
    simp only [sortVal] <;>
    exact congrArg _ (le_antisymm (not_lt.mp h2) (not_lt.mp h1))

/-- `sortLe` holding in both directions forces equal sort keys. -/
theorem sortLe_both_eq (k : SortKey) (d : SortDir) (a b : Company)
    (h1 : sortLe k d a b = true) (h2 : sortLe k d b a = true) :
    sortVal k a = sortVal k b := by
  cases d <;> simp only [sortLe, Bool.not_eq_true'] at h1 h2 <;>
    first
      | exact sortVal_eq_of_both k a b h2 h1
      | exact sortVal_eq_of_both k a b h1 h2

/-- Flipping the direction transposes the comparator-induced order. -/
theorem sortLe_flip (k : SortKey) (d : SortDir) (a b : Company) :
    sortLe k (flipDir d) a b = sortLe k d b a := by
  cases d <;> rfl

/-- A permutation between two lists sorted by the same order is the identity
as soon as the order is antisymmetric on the elements involved. -/
theorem sorted_perm_unique {α : Type} (le : α → α → Bool) :
    ∀ (l₁ l₂ : List α), l₁.Perm l₂ →
      (∀ a ∈ l₁, ∀ b ∈ l₁, le a b = true → le b a = true → a = b) →
      l₁.Pairwise (fun a b => le a b = true) →
      l₂.Pairwise (fun a b => le a b = true) → l₁ = l₂ := by
  intro l₁
  induction l₁ with
  | nil =>
    intro l₂ p _ _ _
    exact (p.symm.eq_nil).symm
  | cons x t₁ ih =>
    intro l₂ p hanti h₁ h₂
    cases l₂ with
    | nil => exact absurd p.eq_nil (by simp)
    | cons y t₂ =>
      rcases List.pairwise_cons.mp h₁ with ⟨hx, ht₁⟩
      rcases List.pairwise_cons.mp h₂ with ⟨hy, ht₂⟩
      by_cases hxy : x = y
      · subst hxy
        have pt : t₁.Perm t₂ := p.cons_inv
        have heq : t₁ = t₂ := ih t₂ pt
          (fun a ha b hb => hanti a (List.mem_cons_of_mem _ ha) b (List.mem_cons_of_mem _ hb))
          ht₁ ht₂
        rw [heq]
      · have hyx : y ∈ x :: t₁ := p.mem_iff.mpr (List.mem_cons_self y t₂)
        have hxt : x ∈ y :: t₂ := p.mem_iff.mp (List.mem_cons_self x t₁)
        have hy1 : y ∈ t₁ := by
          cases List.mem_cons.mp hyx with
          | inl h => exact absurd h.symm hxy
          | inr h => exact h
        have hx2 : x ∈ t₂ := by
          cases List.mem_cons.mp hxt with
          | inl h => exact absurd h hxy
          | inr h => exact h
        exact absurd
          (hanti x (List.mem_cons_self x t₁) y hyx (hx y hy1) (hy x hx2)) hxy

/-- Concatenating the six-element chunks numbered `0 .. n-1` of a list yields
its first `6 * n` elements. -/
theorem range_flatMap_take {α : Type} (n : Nat) (l : List α) :
    (List.range n).flatMap (fun i => (l.drop (i * itemsPerPage)).take itemsPerPage) =
      l.take (n * itemsPerPage) := by
  induction n with
  | zero => simp
  | succ m ih =>
    rw [List.range_succ, List.flatMap_append, ih]
    simp only [List.flatMap_cons, List.flatMap_nil, List.append_nil]
    rw [Nat.succ_mul, List.take_add]

/- ===================== Claim theorems ===================== -/

/-- A one-record list used by concrete witnesses and counterexamples. -/
def acmeCo : Company :=
  { id := 1, name := "Acme", location := "NY", industry := "Tech",
    employees := 100, founded := 2000, ticker := none }

/-- Claim C2: the filter step keeps a record iff (a) `searchTerm` is empty or its
case-folded form is a substring of the record's case-folded `name` or `location`,
(b) `locationFilter` is empty or equals the record's `location` exactly, and
(c) `industryFilter` is empty or equals the record's `industry` exactly. -/
theorem c2_filter_iff (l : List Company) (vs : ViewState) (c : Company) :
    c ∈ filterStep vs l ↔
      c ∈ l ∧
        (vs.searchTerm = "" ∨ lowerChars vs.searchTerm <:+: lowerChars c.name ∨
          lowerChars vs.searchTerm <:+: lowerChars c.location) ∧
        (vs.locationFilter = "" ∨ c.location = vs.locationFilter) ∧
        (vs.industryFilter = "" ∨ c.industry = vs.industryFilter) := by
  simp only [filterStep, List.mem_filter, filterPred, Bool.and_eq_true, Bool.or_eq_true,
    jsIncludes, decide_eq_true_iff, beq_iff_eq]
  constructor
  · rintro ⟨hm, ⟨⟨hs, hl⟩, hi⟩⟩
    exact ⟨hm, Or.inr hs, hl, hi⟩
  · rintro ⟨hm, hs, hl, hi⟩
    refine ⟨hm, ⟨?_, hl⟩, hi⟩
    rcases hs with h | h
    · left
      rw [h]
      exact List.nil_infix
    · exact h

/-- Counterexample to claim C3: the paginate step applies no clamping. With a
one-record list `totalPages = 1`, yet requesting page 2 serves the empty slice,
which is not the slice of any page in `[1, max 1 totalPages] = {1}`. -/
theorem c3_counterexample :
    totalPages [acmeCo] = 1 ∧ paginate [acmeCo] 2 = [] ∧ paginate [acmeCo] 1 = [acmeCo] := by
  decide

/-- Claim C3 (amended): for the positive page numbers the component produces,
`paginatedCompanies` slices at the raw page index with no clamping: a page
beyond `totalPages` yields the empty slice, while a page within
`[1, totalPages]` yields a non-empty one. -/
theorem c3_amended (l : List Company) (p : Nat) (hp : 1 ≤ p) :
    (totalPages l < p → paginate l p = []) ∧
      (p ≤ totalPages l → paginate l p ≠ []) := by
  constructor
  · intro h
    have hlen : l.length ≤ (p - 1) * itemsPerPage := by
      simp only [itemsPerPage]
      simp only [totalPages, itemsPerPage] at h
      omega
    simp only [paginate, List.drop_eq_nil_iff.mpr hlen]
    rfl
  · intro h hcon
    have hlen : (p - 1) * 6 < l.length := by
      simp only [totalPages, itemsPerPage] at h
      omega
    simp only [paginate] at hcon
    rcases List.take_eq_nil_iff.mp hcon with h6 | hdrop
    · exact absurd h6 (by decide)
    · rw [List.drop_eq_nil_iff] at hdrop
      simp only [itemsPerPage] at hdrop
      omega

/-- Witness for the amended claim C3 at a concrete input: with one record,
page 2 is served the empty slice and page 1 a non-empty one. -/
theorem c3_witness :
    paginate [acmeCo] 2 = [] ∧ paginate [acmeCo] 1 ≠ [] :=
  ⟨(c3_amended [acmeCo] 2 (by decide)).1 (by decide),
   (c3_amended [acmeCo] 1 (by decide)).2 (by decide)⟩

/-- Claim C4: `itemsPerPage` is the fixed constant 6; `totalPages` is the
ceiling of `count / 6` (the two inequalities pin it down, covering the
`count = 0` case); and concatenating the slices of pages `1 .. totalPages`
reproduces `filteredSorted` exactly. -/
theorem c4_pagination (l : List Company) (vs : ViewState) :
    itemsPerPage = 6 ∧
      ((filteredSorted vs l).length ≤ itemsPerPage * totalPages (filteredSorted vs l) ∧
        itemsPerPage * totalPages (filteredSorted vs l) <
          (filteredSorted vs l).length + itemsPerPage) ∧
      (List.range (totalPages (filteredSorted vs l))).flatMap
          (fun i => paginate (filteredSorted vs l) (i + 1)) =
        filteredSorted vs l := by
  refine ⟨rfl, ?_, ?_⟩
  · simp only [totalPages, itemsPerPage]
    omega
  · have hle : (filteredSorted vs l).length ≤
        totalPages (filteredSorted vs l) * itemsPerPage := by
      simp only [totalPages, itemsPerPage]
      omega
    have hpag : ∀ i : Nat, paginate (filteredSorted vs l) (i + 1) =
        ((filteredSorted vs l).drop (i * itemsPerPage)).take itemsPerPage := by
      intro i
      simp [paginate]
    simp only [hpag]
    rw [range_flatMap_take]
    exact List.take_of_length_le hle

/-- Counterexample to claim C5: `handleSort` changes the sort key (here from
`name` to `location`) yet leaves `page` at 3 instead of resetting it to 1. -/
theorem c5_counterexample :
    (handleSort ⟨"", "", "", SortKey.name, SortDir.asc, 3⟩ SortKey.location).sortBy ≠
        (⟨"", "", "", SortKey.name, SortDir.asc, 3⟩ : ViewState).sortBy ∧
      (handleSort ⟨"", "", "", SortKey.name, SortDir.asc, 3⟩ SortKey.location).page ≠ 1 := by
  decide

/-- Claim C5 (amended): the `searchTerm`, `locationFilter` and `industryFilter`
change handlers reset `page` to 1, but `handleSort` — the only transition that
changes `sortKey` or `sortDirection` — leaves `page` unchanged. -/
theorem c5_amended (vs : ViewState) (v w u : String) (f : SortKey) :
    (onSearchChange vs v).page = 1 ∧ (onLocationChange vs w).page = 1 ∧
      (onIndustryChange vs u).page = 1 ∧ (handleSort vs f).page = vs.page := by
  refine ⟨rfl, rfl, rfl, ?_⟩
  by_cases h : vs.sortBy = f <;> simp [handleSort, h]

/-- Claim C6: a `GET /api/companies` served while the cached snapshot is within
the one-hour freshness window returns the cached records tagged
`source = "cache"` and leaves the stored list and timestamp untouched; the
right-hand side does not mention the external response `resp`, so the external
source is not consulted. The `t ≠ 0` hypothesis is the JS truthiness of
`lastFetchTime` (a `Date.now()` result is a positive epoch-millisecond value). -/
theorem c6_cache_hit (st : ServerState) (l : List Company) (t now : Int)
    (resp : Option (List SecEntry)) (randE randF : Nat → Nat)
    (hc : st.cachedCompanies = some l) (ht : st.lastFetchTime = some t)
    (ht0 : t ≠ 0) (hfresh : now - t < CACHE_DURATION) :
    getCompanies st now resp randE randF =
      ({ success := true, data := l, count := some l.length, source := some "cache" },
        st) := by
  have hfc : freshCache st now = some l := by
    simp [freshCache, hc, ht, ht0, hfresh]
  simp [getCompanies, hfc]

/-- Witness for claim C6 at a concrete fresh cache state. -/
theorem c6_witness :
    getCompanies ⟨some [acmeCo], some 100⟩ 200 none (fun _ => 0) (fun _ => 0) =
      ({ success := true, data := [acmeCo], count := some 1, source := some "cache" },
        ⟨some [acmeCo], some 100⟩) :=
  c6_cache_hit ⟨some [acmeCo], some 100⟩ [acmeCo] 100 200 none (fun _ => 0) (fun _ => 0)
    rfl rfl (by decide) (by decide)

/-- Counterexample to claim C7: when the external call fails (`resp = none`)
the served data is exactly the curated fallback list, but the response is
tagged `source = "api"` — the code never produces a `"fallback"` tag. -/
theorem c7_counterexample :
    (getCompanies ⟨none, none⟩ 1000 none (fun _ => 0) (fun _ => 0)).1.data =
        getRealCompanies ∧
      (getCompanies ⟨none, none⟩ 1000 none (fun _ => 0) (fun _ => 0)).1.source =
        some "api" ∧
      (some "api" : Option String) ≠ some "fallback" :=
  ⟨rfl, rfl, by decide⟩

/-- Claim C7 (amended): if the external primary-source call fails or times out,
`fetchCompanies` returns exactly the curated 20-record fallback list with
non-empty names, and the refresh route answers it with a plain 200 success
response (no exception escapes) — but the response carries no `"fallback"`
tag (the `GET` route tags every fresh fetch `"api"`). -/
theorem c7_amended (st : ServerState) (completedAt : Int) (randE randF : Nat → Nat) :
    fetchCompanies none randE randF = getRealCompanies ∧
      getRealCompanies.length = 20 ∧
      (getRealCompanies.all fun c => !(c.name == "")) = true ∧
      (postRefresh st completedAt none randE randF).1.success = true ∧
      (postRefresh st completedAt none randE randF).1.status = 200 ∧
      (postRefresh st completedAt none randE randF).1.data = getRealCompanies :=
  ⟨rfl, by decide, by decide, rfl, rfl, rfl⟩

/-- Counterexample to claim C8: a stale `GET /api/companies` run whose handler
entered at clock value 1000 stores `fetchedAt = 1000`, the request-start
sample — under any fetch completion instant (for example 6000, which is what
the `POST` refresh handler would have stored). -/
theorem c8_counterexample :
    (getCompanies ⟨none, none⟩ 1000 none (fun _ => 0) (fun _ => 0)).2.lastFetchTime =
        some 1000 ∧
      (1000 : Int) ≠ 6000 :=
  ⟨rfl, by decide⟩

/-- Claim C8 (amended): every refresh unconditionally replaces the snapshot;
`POST /api/companies/refresh` timestamps it with the `Date.now()` sample taken
after the fetch completes, but the stale `GET /api/companies` path timestamps
it with the `Date.now()` sample taken at the start of the request, before the
fetch ran. -/
theorem c8_amended (st : ServerState) (now completedAt : Int)
    (resp : Option (List SecEntry)) (randE randF : Nat → Nat)
    (hstale : freshCache st now = none) :
    (getCompanies st now resp randE randF).2 =
        ⟨some (fetchCompanies resp randE randF), some now⟩ ∧
      (postRefresh st completedAt resp randE randF).2 =
        ⟨some (fetchCompanies resp randE randF), some completedAt⟩ := by
  constructor
  · simp [getCompanies, hstale]
  · rfl

/-- Witness for the amended claim C8 on the empty initial state. -/
theorem c8_witness :
    (getCompanies ⟨none, none⟩ 1000 none (fun _ => 0) (fun _ => 0)).2 =
        ⟨some (fetchCompanies none (fun _ => 0) (fun _ => 0)), some 1000⟩ ∧
      (postRefresh ⟨none, none⟩ 6000 none (fun _ => 0) (fun _ => 0)).2 =
        ⟨some (fetchCompanies none (fun _ => 0) (fun _ => 0)), some 6000⟩ :=
  c8_amended ⟨none, none⟩ 1000 6000 none (fun _ => 0) (fun _ => 0) rfl

/-- Every record the SEC mapping emits from running index `k` onward has an id
of at least `k + 1`. -/
theorem mapSecFrom_id_lb (randE randF : Nat → Nat) :
    ∀ (es : List SecEntry) (k : Nat) (c : Company),
      c ∈ mapSecFrom randE randF k es → (k : Int) + 1 ≤ c.id := by
  intro es
  induction es with
  | nil =>
    intro k c hc
    simp [mapSecFrom] at hc
  | cons e es ih =>
    intro k c hc
    rcases List.mem_cons.mp hc with h | h
    · subst h
      simp [mkSecCompany]
    · have := ih (k + 1) c h
      push_cast at this ⊢
      omega

/-- The ids produced by the SEC mapping are pairwise distinct (they are the
successive values `k + 1, k + 2, ...`). -/
theorem mapSecFrom_id_nodup (randE randF : Nat → Nat) :
    ∀ (es : List SecEntry) (k : Nat),
      ((mapSecFrom randE randF k es).map Company.id).Nodup := by
  intro es
  induction es with
  | nil =>
    intro k
    simp [mapSecFrom]
  | cons e es ih =>
    intro k
    simp only [mapSecFrom, List.map_cons, List.nodup_cons]
    refine ⟨?_, ih (k + 1)⟩
    intro hmem
    rcases List.mem_map.mp hmem with ⟨c, hc, hid⟩
    have hlb := mapSecFrom_id_lb randE randF es (k + 1) c hc
    rw [hid] at hlb
    simp only [mkSecCompany] at hlb
    push_cast at hlb
    omega

/-- Every record the SEC mapping emits has a non-negative employee count
(`Math.floor(Math.random() * 5000) + 100 ≥ 100`). -/
theorem mapSecFrom_emp_nonneg (randE randF : Nat → Nat) :
    ∀ (es : List SecEntry) (k : Nat) (c : Company),
      c ∈ mapSecFrom randE randF k es → 0 ≤ c.employees := by
  intro es
  induction es with
  | nil =>
    intro k c hc
    simp [mapSecFrom] at hc
  | cons e es ih =>
    intro k c hc
    rcases List.mem_cons.mp hc with h | h
    · subst h
      simp only [mkSecCompany]
      exact Int.natCast_nonneg _
    · exact ih (k + 1) c h

/-- Claim C9: whichever way the cache service produces a snapshot — by mapping
entries of the external primary source or by taking the curated fallback list —
the `id` fields are pairwise distinct and every `employees` field is `≥ 0`. -/
theorem c9_snapshot_invariants (resp : Option (List SecEntry)) (randE randF : Nat → Nat) :
    ((fetchCompanies resp randE randF).map Company.id).Nodup ∧
      ((fetchCompanies resp randE randF).all fun c => decide (0 ≤ c.employees)) = true := by
  cases resp with
  | none =>
    constructor
    · show (getRealCompanies.map Company.id).Nodup
      decide
    · show (getRealCompanies.all fun c => decide (0 ≤ c.employees)) = true
      decide
  | some d =>
    have hred : fetchCompanies (some d) randE randF =
        (if 0 < (mapSecFrom randE randF 0 (d.take 20)).length
         then mapSecFrom randE randF 0 (d.take 20) else getRealCompanies) := rfl
    rw [hred]
    by_cases h : 0 < (mapSecFrom randE randF 0 (d.take 20)).length
    · rw [if_pos h]
      refine ⟨mapSecFrom_id_nodup randE randF (d.take 20) 0, ?_⟩
      rw [List.all_eq_true]
      intro c hc
      simpa using mapSecFrom_emp_nonneg randE randF (d.take 20) 0 c hc
    · rw [if_neg h]
      exact ⟨by decide, by decide⟩

/-- Claim C10: whenever the parsed `:id` path parameter matches no record of the
snapshot the route works on — including a non-numeric parameter, which parses
to `NaN` (`parsedId = none`) and matches nothing — `GET /api/companies/:id`
answers the 404 not-found shape (`success = false`, message
`"Company not found"`), not a 500 service error. -/
theorem c10_not_found (st : ServerState) (parsedId : Option Int)
    (resp : Option (List SecEntry)) (randE randF : Nat → Nat)
    (h : ∀ n : Int, parsedId = some n →
      ∀ c ∈ effectiveCache st resp randE randF, c.id ≠ n) :
    (getCompanyById st parsedId resp randE randF).1 =
      { status := 404, success := false, message := some "Company not found" } := by
  cases parsedId with
  | none => rfl
  | some n =>
    have hfind : (effectiveCache st resp randE randF).find? (fun c => c.id == n) = none := by
      rw [List.find?_eq_none]
      intro c hc
      simp only [beq_iff_eq]
      exact h n rfl c hc
    simp [getCompanyById, hfind]

/-- Witness for claim C10: on the empty initial state the lookup triggers a
fetch (here the fallback list, ids 1..20); id 999 matches nothing and the
route answers 404. -/
theorem c10_witness :
    (getCompanyById ⟨none, none⟩ (some 999) none (fun _ => 0) (fun _ => 0)).1 =
      { status := 404, success := false, message := some "Company not found" } :=
  c10_not_found ⟨none, none⟩ (some 999) none (fun _ => 0) (fun _ => 0) (by
    intro n hn
    cases hn
    decide)

/-- Claim C1: the sort step orders the filtered records by the field named by
`sortBy` under the comparator-induced order (strings case-insensitively,
numbers by value, inverted for `desc`): every adjacent pair of
`filteredSorted` respects the direction, and — for records with pairwise
distinct sort keys — re-sorting with the direction flipped reverses the order. -/
theorem c1_sort_order (l : List Company) (vs : ViewState) :
    List.Chain' (fun a b => sortLe vs.sortBy vs.sortOrder a b = true) (filteredSorted vs l) ∧
      ((filterStep vs l).Pairwise (fun a b => sortVal vs.sortBy a ≠ sortVal vs.sortBy b) →
        filteredSorted { vs with sortOrder := flipDir vs.sortOrder } l =
          (filteredSorted vs l).reverse) := by
  constructor
  · exact (List.sorted_mergeSort (fun a b c => sortLe_trans vs.sortBy vs.sortOrder a b c)
      (fun a b => sortLe_total vs.sortBy vs.sortOrder a b) (filterStep vs l)).chain'
  · intro hnd
    show (filterStep vs l).mergeSort (sortLe vs.sortBy (flipDir vs.sortOrder)) =
      ((filterStep vs l).mergeSort (sortLe vs.sortBy vs.sortOrder)).reverse
    have hsym : Symmetric (fun a b : Company => sortVal vs.sortBy a ≠ sortVal vs.sortBy b) :=
      fun _ _ h => h.symm
    have hndD : ((filterStep vs l).mergeSort
          (sortLe vs.sortBy (flipDir vs.sortOrder))).Pairwise
        (fun a b => sortVal vs.sortBy a ≠ sortVal vs.sortBy b) :=
      ((List.mergeSort_perm (filterStep vs l)
          (sortLe vs.sortBy (flipDir vs.sortOrder))).symm.pairwise_iff
        (fun h => h.symm)).mp hnd
    apply sorted_perm_unique (sortLe vs.sortBy (flipDir vs.sortOrder))
    · exact ((List.mergeSort_perm (filterStep vs l)
          (sortLe vs.sortBy (flipDir vs.sortOrder))).trans
        ((List.mergeSort_perm (filterStep vs l)
          (sortLe vs.sortBy vs.sortOrder)).symm)).trans
        (List.reverse_perm _).symm
    · intro a ha b hb h1 h2
      by_cases hab : a = b
      · exact hab
      · exact absurd (sortLe_both_eq vs.sortBy (flipDir vs.sortOrder) a b h1 h2)
          (List.Pairwise.forall hsym hndD ha hb hab)
    · exact List.sorted_mergeSort
        (fun a b c => sortLe_trans vs.sortBy (flipDir vs.sortOrder) a b c)
        (fun a b => sortLe_total vs.sortBy (flipDir vs.sortOrder) a b) _
    · rw [List.pairwise_reverse]
      have hflip : ∀ a b : Company,
          (sortLe vs.sortBy (flipDir vs.sortOrder) b a = true) =
            (sortLe vs.sortBy vs.sortOrder a b = true) := by
        intro a b
        rw [sortLe_flip]
      simp only [hflip]
      exact List.sorted_mergeSort
        (fun a b c => sortLe_trans vs.sortBy vs.sortOrder a b c)
        (fun a b => sortLe_total vs.sortBy vs.sortOrder a b) _

/-- Witness for claim C1 on the full fallback dataset sorted by name ascending:
adjacent pairs respect the direction, and since all 20 lowercased names are
distinct, re-sorting descending reverses the order. -/
theorem c1_witness :
    List.Chain' (fun a b => sortLe SortKey.name SortDir.asc a b = true)
        (filteredSorted ⟨"", "", "", SortKey.name, SortDir.asc, 1⟩ getRealCompanies) ∧
      filteredSorted ⟨"", "", "", SortKey.name, SortDir.desc, 1⟩ getRealCompanies =
        (filteredSorted ⟨"", "", "", SortKey.name, SortDir.asc, 1⟩ getRealCompanies).reverse := by
  have h := c1_sort_order getRealCompanies ⟨"", "", "", SortKey.name, SortDir.asc, 1⟩
  exact ⟨h.1, h.2 (by decide)⟩
